import Mathlib

/-!
Shallow embedding of the lobster/boat agent simulation
(Lobster_Folder/agent.py and Lobster_Folder/model.py).

Grid positions are natural-number pairs.  Grid queries (neighbor lists,
neighborhood position lists) are supplied to each agent's step function as an
environment record holding the query results, exactly as the mesa grid would
return them; the grid's `move_agent` on a non-toroidal grid is embedded as a
bounds-checked operation returning `Except` (mesa raises on out-of-bounds).
Randomness (`random.choice`, `random.random`, `random.shuffle`) is embedded as
oracle fields of the environment: an index selecting a list element models a
uniform choice among that list.
-/

/-- Grid position (x, y); y is the row, "north" is increasing y. -/
abbrev Pos : Type := Nat × Nat

/-- View of one agent as returned by a grid neighbor query
(`grid.get_neighbors`); carries the fields the querying agent inspects:
the kind tag (`type(n)`), the position, a lobster's `state`, and a heat
spot's `tracks` history. -/
inductive NAgent where
  | ocean : Pos → NAgent
  | lobsterA : Pos → String → NAgent
  | heatspot : Pos → List Nat → NAgent
  | boatA : Pos → NAgent
  | portA : Pos → NAgent
deriving DecidableEq, Repr

/-- Kind test `type(n) is Heat_Spot`. -/
def NAgent.isHeat : NAgent → Bool
  | NAgent.heatspot _ _ => true
  | _ => false

/-- A heat spot's `track()` result; `[]` for agents of any other kind. -/
def NAgent.heatTracks : NAgent → List Nat
  | NAgent.heatspot _ t => t
  | _ => []

/-- Euclidean distance comparisons from `get_distance` (agent.py line 8),
embedded as the squared distance: `get_distance` returns
`sqrt(dx**2 + dy**2)`, and the source only compares distances for minimum
and equality, which the square preserves. -/
def dist2 (p q : Pos) : Int :=
  ((p.1 : Int) - (q.1 : Int)) ^ 2 + ((p.2 : Int) - (q.2 : Int)) ^ 2

/-- Boat agent state (agent.py `Boat.__init__`, lines 93-102): `home` is the
home port's position (the boat only ever reads `self.home.pos`), `size` and
`state` are the source's string tags, `amount` the held catch, `turn` the
per-boat tick counter, `unable` the depth-limit flag.  The constant
`moore=True` flag is left implicit (all queries are 8-connected). -/
structure Boat where
  home : Pos
  pos : Pos
  size : String
  state : String
  amount : Nat
  turn : Nat
  unable : Bool
deriving DecidableEq, Repr

/-- Environment of one `Boat.step` call: the grid query results and random
draws the step consumes.  `neighborsIncl` is `get_neighbors(pos, moore, True)`
(include_center) used by `catch`; `nbhd` is
`get_neighborhood(pos, moore, True)` used by `random_move` (the mesa grid
returns only in-bounds cells on a non-toroidal grid, and the list always
contains the center cell, hence is non-empty in any real query);
`oceanNbrs` is the position list of Ocean occupants among the 8 neighbors,
used by `return_home`; `randIdx` and `shuffleIdx` model `random.choice` and
`random.shuffle`-then-take-first as a uniform index choice. -/
structure BoatEnv where
  neighborsIncl : List NAgent
  nbhd : List Pos
  oceanNbrs : List Pos
  randIdx : Nat
  shuffleIdx : Nat
deriving Repr

/-- Grid relocation `grid.move_agent(agent, p)` on the non-toroidal
`MultiGrid`: rejects an out-of-bounds target (mesa raises an exception),
otherwise updates the agent's position.  `gw`, `gh` are the grid extents. -/
def moveAgent (gw gh : Nat) (b : Boat) (p : Pos) : Except String Boat :=
  if p.1 < gw ∧ p.2 < gh then Except.ok { b with pos := p }
  else Except.error "Cell out of bounds"

/-- Boat `smart_move` (agent.py lines 179-182): move to `(x, y+1)` with no
bounds check of its own; the grid's `move_agent` is what rejects an
out-of-bounds target. -/
def smartMove (gw gh : Nat) (b : Boat) : Except String Boat :=
  moveAgent gw gh b (b.pos.1, b.pos.2 + 1)

/-- Boat `random_move` (agent.py lines 168-177): choose uniformly among the
queried neighborhood (which includes the center and only in-bounds cells) and
move there.  The source's retry-on-exception loop exits on the first pick
because every queried cell is in bounds; with an empty query result the
source would loop forever, which never arises since the center is always
included — the embedding keeps the boat in place on that dead branch. -/
def randomMove (b : Boat) (env : BoatEnv) : Boat :=
  { b with pos := env.nbhd.getD (env.randIdx % env.nbhd.length) b.pos }

/-- First Wander-state lobster in a neighbor list, as scanned by the `for`
loop of `Boat.catch` (agent.py lines 155-166): non-lobsters and
non-Wander lobsters are skipped, the first Wander lobster's position is
returned. -/
def findWander : List NAgent → Option Pos
  | [] => none
  | NAgent.lobsterA p s :: rest =>
      if s = "Wander" then some p else findWander rest
  | _ :: rest => findWander rest

/-- Boat `catch` (agent.py lines 155-166): scan the 8-neighbors plus center
for a Wander lobster; on a hit, move onto its cell, increment `amount`, and
report `true` (the captured lobster's own state flip to Caught mutates that
lobster, not the boat, and is outside this boat-local embedding).  With no
hit, report `false`. -/
def catchTry (gw gh : Nat) (b : Boat) (env : BoatEnv) :
    Except String (Boat × Bool) :=
  match findWander env.neighborsIncl with
  | none => Except.ok (b, false)
  | some p =>
      match moveAgent gw gh b p with
      | Except.error e => Except.error e
      | Except.ok b1 => Except.ok ({ b1 with amount := b1.amount + 1 }, true)

/-- Boat `able_to_return` (agent.py lines 132-138): exact equality with the
size-class capacity, 10 for Big and 5 for Small. -/
def ableToReturn (b : Boat) : Bool :=
  if b.size = "Big" ∧ b.amount = 10 then true
  else if b.size = "Small" ∧ b.amount = 5 then true
  else false

/-- Boat `return_home` (agent.py lines 140-152): among the Ocean-occupied
neighbor positions, keep those at minimum distance to the home port, shuffle
and take the first (a uniform pick, modelled by `shuffleIdx`), and move
there.  An empty neighbor list would make Python's `min` raise, which the
embedding mirrors as an error. -/
def returnHome (gw gh : Nat) (b : Boat) (env : BoatEnv) : Except String Boat :=
  match env.oceanNbrs with
  | [] => Except.error "min arg is an empty sequence"
  | p :: ps =>
      let m := (ps.map (dist2 b.home)).foldl min (dist2 b.home p)
      let final := (p :: ps).filter (fun q => dist2 b.home q == m)
      moveAgent gw gh b (final.getD (env.shuffleIdx % final.length) b.pos)

/-- Boat `step` (agent.py lines 104-129), one tick of the boat state
machine.  Returns the updated boat together with the tick's additions to the
World's `big_count` and `small_count` aggregates (the source mutates
`self.model.big_count` / `self.model.small_count` in place). -/
def boatStep (gw gh : Nat) (b0 : Boat) (env : BoatEnv) :
    Except String (Boat × Nat × Nat) :=
  let b := { b0 with turn := b0.turn + 1 }
  if b.state = "Search" then
    if (b.size = "Small" ∧ b.pos.2 < 26) ∨ b.size = "Big" then
      match (if b.pos.2 < 4 + b.turn / 5 then smartMove gw gh b
             else Except.ok (randomMove b env)) with
      | Except.error e => Except.error e
      | Except.ok b1 =>
          match catchTry gw gh b1 env with
          | Except.error e => Except.error e
          | Except.ok (b2, c) =>
              if c && ableToReturn b2 then
                Except.ok ({ b2 with state := "Return" }, 0, 0)
              else Except.ok (b2, 0, 0)
    else Except.ok ({ b with unable := true, state := "Return" }, 0, 0)
  else
    if b.pos = b.home then
      let b1 := if !b.unable then { b with state := "Search" } else b
      if b1.size = "Big" then Except.ok ({ b1 with amount := 0 }, b1.amount, 0)
      else Except.ok ({ b1 with amount := 0 }, 0, b1.amount)
    else
      match returnHome gw gh b env with
      | Except.error e => Except.error e
      | Except.ok b1 => Except.ok (b1, 0, 0)

/-- Run a boat through a list of per-tick environments, stopping at the
first raised error, as a driver would invoke `Boat.step` once per tick. -/
def boatRun (gw gh : Nat) (b : Boat) : List BoatEnv → Except String Boat
  | [] => Except.ok b
  | e :: es =>
      match boatStep gw gh b e with
      | Except.error msg => Except.error msg
      | Except.ok (b1, _) => boatRun gw gh b1 es

/-- Capacity of a boat's size class as used by `able_to_return`:
10 for Big, 5 otherwise (every boat's size is Small or Big). -/
def capacity (s : String) : Nat := if s = "Big" then 10 else 5

/-- State invariant of a boat maintained by `Boat.step`: the size and state
tags are among the values the program ever assigns, the held amount never
exceeds the size-class capacity, and a boat still in Search holds strictly
less than capacity. -/
def BoatInv (b : Boat) : Prop :=
  (b.size = "Small" ∨ b.size = "Big") ∧
  (b.state = "Search" ∨ b.state = "Return") ∧
  b.amount ≤ capacity b.size ∧
  (b.state = "Search" → b.amount < capacity b.size)

instance (b : Boat) : Decidable (BoatInv b) := by
  unfold BoatInv; infer_instance

/-- Lobster agent state (agent.py `Lobster.__init__`, lines 31-41): position,
the `state` string ("Wander" or "Caught"), the per-tick `turn` counter and
the `count`/`counts` bookkeeping.  The randomly initialised `timer`, the
constant `moore=True`, and the private per-lobster scheduler handle carry no
behaviour in `step` and are left implicit. -/
structure Lob where
  pos : Pos
  state : String
  turn : Nat
  count : Nat
  counts : List Nat
deriving DecidableEq, Repr

/-- Environment of one `Lobster.step` call: `neighbors` is
`get_neighbors(pos, moore)` (8-neighbors, no center) consumed by
`heat_locater`; `nbhd` is `get_neighborhood(pos, moore, True)` (in-bounds
positions, center included); `choice` models `random.choice` as a uniform
index; `southRoll` models `random.random() < 0.25` in `neighbor_move`. -/
structure LobEnv where
  neighbors : List NAgent
  nbhd : List Pos
  choice : Nat
  southRoll : Bool
deriving Repr

/-- Lobster `heat_locater` (agent.py lines 59-63): filter the neighbor list
to heat spots, then the `for` loop returns the FIRST heat spot's `track()`
on its first iteration — only the first queried heat spot's history is ever
used; with no heat neighbor the function returns `None`. -/
def heatLocater (ns : List NAgent) : Option (List Nat) :=
  match ns.filter NAgent.isHeat with
  | [] => none
  | h :: _ => some h.heatTracks

/-- Candidate move list built by `Lobster.move_north` (agent.py lines
65-72): empty when `heat_locater` returned `None`; otherwise every
neighborhood position (center included) whose row is not in the returned
history list. -/
def moveNorthMoves (nbhd : List Pos) : Option (List Nat) → List Pos
  | none => []
  | some t => nbhd.filter (fun m => !(t.contains m.2))

/-- Effect of `Lobster.neighbor_move` (agent.py lines 81-88) on the lobster
itself: with probability 0.25 (oracle `southRoll`) advance one row south
when `pos[1]+1 < model.size()` — note `World.size()` returns the WIDTH
(model.py lines 91-92), so `wsize` here is the world's width.  The
recursive cascade into strictly-more-southern neighbor lobsters mutates
those other lobsters only and is outside this single-agent embedding. -/
def neighborMoveSelf (wsize : Nat) (l : Lob) (env : LobEnv) : Lob :=
  if env.southRoll ∧ l.pos.2 + 1 < wsize then
    { l with pos := (l.pos.1, l.pos.2 + 1) }
  else l

/-- Lobster `move_north` (agent.py lines 65-77): build the candidate list;
with no candidate, return with no move at all; otherwise relocate to a
uniformly chosen candidate and then run `neighbor_move`. -/
def moveNorth (wsize : Nat) (l : Lob) (env : LobEnv) : Lob :=
  let moves := moveNorthMoves env.nbhd (heatLocater env.neighbors)
  if moves = [] then l
  else
    neighborMoveSelf wsize
      { l with pos := moves.getD (env.choice % moves.length) l.pos } env

/-- Lobster `step` (agent.py lines 53-57): increment `turn`, run
`move_north`, then bump the `count`/`counts` bookkeeping.  The state field
is never consulted. -/
def lobsterStep (wsize : Nat) (l0 : Lob) (env : LobEnv) : Lob :=
  let l := { l0 with turn := l0.turn + 1 }
  let l := moveNorth wsize l env
  { l with count := l.count + 1, counts := l.counts ++ [l.count + 1] }

/-- The union of the row histories of every heat spot in a neighbor list
(the avoidance set the specification describes for `move_north`). -/
def unionTracks (ns : List NAgent) : List Nat :=
  (ns.filter NAgent.isHeat).foldr (fun h acc => h.heatTracks ++ acc) []

/-- Heat_Spot agent state (agent.py `Heat_Spot.__init__`, lines 216-222):
position, the `count` cursor (starts at 4), the `turn` counter, and the
`tracks` history list (starts `[0,1,2,3,4]`). -/
structure Heat where
  pos : Pos
  count : Nat
  turn : Nat
  tracks : List Nat
deriving DecidableEq, Repr

/-- A heat spot as placed by `World.__init__` (model.py lines 57-61):
column `c`, row 3, with the constructor's initial `count = 4`, `turn = 0`
and `tracks = [0,1,2,3,4]`. -/
def heatInit (c : Nat) : Heat :=
  { pos := (c, 3), count := 4, turn := 0, tracks := [0, 1, 2, 3, 4] }

/-- Heat_Spot `step` (agent.py lines 224-229): increment `turn`; on every
5th tick call `grid.move_agent(self, (x, count))` — which raises the
non-toroidal grid's out-of-bounds error when the target leaves the `gw` by
`gh` extents, leaving `count` and `tracks` untouched — THEN increment
`count`, THEN append the already-incremented `count` to `tracks`, so the
appended value is one more than the row just moved to. -/
def heatStep (gw gh : Nat) (h : Heat) : Except String Heat :=
  let t := h.turn + 1
  if t % 5 = 0 then
    if h.pos.1 < gw ∧ h.count < gh then
      Except.ok { pos := (h.pos.1, h.count), count := h.count + 1, turn := t,
                  tracks := h.tracks ++ [h.count + 1] }
    else Except.error "Cell out of bounds"
  else Except.ok { h with turn := t }

/-- Run a heat spot through `n` consecutive ticks, stopping at the first
raised error, as the scheduler would invoke `Heat_Spot.step` once per
tick. -/
def heatRun (gw gh : Nat) (h : Heat) : Nat → Except String Heat
  | 0 => Except.ok h
  | n + 1 =>
      match heatStep gw gh h with
      | Except.error e => Except.error e
      | Except.ok h1 => heatRun gw gh h1 n

/-- Home/Port agent state (agent.py `Home.__init__`, lines 191-199):
position, accumulated `amount` (initialised to 0), and the size tag. -/
structure HomeA where
  pos : Pos
  amount : Nat
  size : String
deriving DecidableEq, Repr

/-- Home `add` (agent.py lines 201-205): add to the port's own amount.
No call site exists anywhere in the repository. -/
def homeAdd (h : HomeA) (n : Nat) : HomeA :=
  { h with amount := h.amount + n }

/-- The three ports built by `World.__init__` (model.py lines 39-51): fixed
positions, all with size tag "big", amounts 0. -/
def initHomes : List HomeA :=
  [ { pos := (13, 0), amount := 0, size := "big" },
    { pos := (26, 0), amount := 0, size := "big" },
    { pos := (39, 0), amount := 0, size := "big" } ]

/-- World model state (model.py `World.__init__`): grid extents, the agent
populations relevant to the model-level bookkeeping (lobsters for the grid
recount, boats for banking, homes), the three aggregate counters, the
scheduler clock `time`, the configured horizon `sim_length`, the `running`
flag, and the three data-collector series. -/
structure WorldState where
  width : Nat
  height : Nat
  lobsters : List Lob
  boats : List Boat
  homes : List HomeA
  big_count : Nat
  small_count : Nat
  lobster_count : Nat
  time : Nat
  sim_length : Nat
  running : Bool
  dc_lobster : List Nat
  dc_big : List Nat
  dc_small : List Nat
deriving DecidableEq, Repr

/-- World `count_lobster` (model.py lines 125-133): iterate `x` over
`range(width)` and `y` over `range(height - 1)` — the loop bound skips the
top row `height - 1` — and count every Wander-state lobster found in those
cells.  Cell contents are the lobsters whose recorded position is the
cell. -/
def countLobsterScan (w : WorldState) : Nat :=
  ((List.range w.width).map (fun x =>
    ((List.range (w.height - 1)).map (fun y =>
      (w.lobsters.filter
        (fun l => decide (l.pos = (x, y)) && decide (l.state = "Wander"))).length)).sum)).sum

/-- What the specification states the recount computes: the number of
Wander-state Lobster agents present anywhere on the grid, scanning every
cell including the top row. -/
def specWanderCount (w : WorldState) : Nat :=
  ((List.range w.width).map (fun x =>
    ((List.range w.height).map (fun y =>
      (w.lobsters.filter
        (fun l => decide (l.pos = (x, y)) && decide (l.state = "Wander"))).length)).sum)).sum

/-- Boat `in_storage` (agent.py lines 184-185) as the mutation it performs
on the model: `self.model.big_count += self.amount`, with no reset of the
boat's amount and no reference to the boat's size or to `small_count`. -/
def inStorage (w : WorldState) (b : Boat) : WorldState :=
  { w with big_count := w.big_count + b.amount }

/-- Append one sample to each of the three data collectors (model.py
`dc_lobster`, `dc_big`, `dc_small` collect calls). -/
def collectAll (w : WorldState) : WorldState :=
  { w with dc_lobster := w.dc_lobster ++ [w.lobster_count],
           dc_big := w.dc_big ++ [w.big_count],
           dc_small := w.dc_small ++ [w.small_count] }

/-- Tail of `World.step` (model.py lines 98-110), everything after
`schedule.step()` returns: recount the lobsters, collect the three metric
series, and — when the scheduler clock has reached the configured horizon —
run `in_storage()` on every Boat in the schedule, collect again, and clear
the `running` flag.  `time` is the post-increment scheduler clock. -/
def worldStepTail (w0 : WorldState) : WorldState :=
  let w1 := { w0 with lobster_count := countLobsterScan w0 }
  let w2 := collectAll w1
  if w2.time = w2.sim_length then
    let w3 := w2.boats.foldl inStorage w2
    { collectAll w3 with running := false }
  else w2

/-! Concrete instances used to evaluate the definitions on explicit inputs. -/

/-- A freshly constructed boat as `World.__init__` places it: row 3, the
constructor defaults size "Small", state "Search", amount 0, turn 0,
unable false. -/
def bC2 : Boat :=
  { home := (13, 0), pos := (0, 3), size := "Small", state := "Search",
    amount := 0, turn := 0, unable := false }

/-- One-tick boat environment whose neighbor query reports a single Wander
lobster at `target` and whose neighborhood list is the single cell `nb`. -/
def envLob (nb target : Pos) : BoatEnv :=
  { neighborsIncl := [NAgent.lobsterA target "Wander"], nbhd := [nb],
    oceanNbrs := [], randIdx := 0, shuffleIdx := 0 }

/-- Five consecutive ticks each offering one catchable lobster adjacent to
the boat's current cell. -/
def envsC2 : List BoatEnv :=
  [envLob (0, 3) (0, 4), envLob (0, 4) (0, 5), envLob (0, 5) (0, 4),
   envLob (0, 4) (0, 5), envLob (0, 5) (0, 4)]

/-- The boat state produced by running `bC2` through `envsC2`: five catches
fill the Small boat to its capacity of 5 and flip it to Return. -/
def bC2final : Boat :=
  { home := (13, 0), pos := (0, 4), size := "Small", state := "Return",
    amount := 5, turn := 5, unable := false }

/-- A boat environment with no lobster in range and a one-cell
neighborhood. -/
def envEmpty : BoatEnv :=
  { neighborsIncl := [], nbhd := [(0, 4)], oceanNbrs := [], randIdx := 0,
    shuffleIdx := 0 }

/-- The boat state after stepping `bC2` once through `envEmpty`. -/
def bC2w1 : Boat :=
  { home := (13, 0), pos := (0, 4), size := "Small", state := "Search",
    amount := 0, turn := 1, unable := false }

/-- A Big searching boat one row below the top of the default 53-row grid,
with its turn counter high enough that the depth limit `4 + turn // 5`
lets `smart_move` run on the next two ticks. -/
def bC9start : Boat :=
  { home := (13, 0), pos := (0, 51), size := "Big", state := "Search",
    amount := 0, turn := 243, unable := false }

/-- The successor of `bC9start`: the same boat on the top row 52. -/
def bC9top : Boat :=
  { home := (13, 0), pos := (0, 52), size := "Big", state := "Search",
    amount := 0, turn := 244, unable := false }

/-- A Small boat with the `unable` flag set, docked at its home port while
holding a catch of 2. -/
def bC8 : Boat :=
  { home := (13, 0), pos := (13, 0), size := "Small", state := "Return",
    amount := 2, turn := 7, unable := true }

/-- The boat state after stepping `bC8` once through `envEmpty`: the catch
is banked, the boat stays in Return with `unable` still set. -/
def bC8after : Boat :=
  { home := (13, 0), pos := (13, 0), size := "Small", state := "Return",
    amount := 0, turn := 8, unable := true }

/-- A lobster already in the terminal Caught state. -/
def lC1 : Lob :=
  { pos := (5, 5), state := "Caught", turn := 0, count := 0, counts := [0] }

/-- A lobster environment with one heat-spot neighbor carrying the initial
history `[0,1,2,3,4]` and the true 8-neighborhood of `(5,5)` including the
center. -/
def envC1 : LobEnv :=
  { neighbors := [NAgent.heatspot (5, 6) [0, 1, 2, 3, 4]],
    nbhd := [(4, 4), (4, 5), (4, 6), (5, 4), (5, 5), (5, 6), (6, 4), (6, 5),
             (6, 6)],
    choice := 0, southRoll := false }

/-- A Wander lobster used to instantiate the move-north theorem. -/
def lC6 : Lob :=
  { pos := (5, 5), state := "Wander", turn := 3, count := 3,
    counts := [0, 1, 2, 3] }

/-- The heat-spot state after four ticks from `heatInit 0`, about to make
its first 5th-tick move. -/
def hW : Heat :=
  { pos := (0, 3), count := 4, turn := 4, tracks := [0, 1, 2, 3, 4] }

/-- The heat-spot state after five ticks from `heatInit 0`: one 5th-tick
move has happened. -/
def hC5 : Heat :=
  { pos := (0, 4), count := 5, turn := 5, tracks := [0, 1, 2, 3, 4, 5] }

/-- The heat-spot state on the top row 52 of the default 53-row grid with
its move cursor already at 53, one tick before a 5th-tick move (reachable
when the configured horizon allows 250 ticks; the UI slider runs to
300). -/
def hTop : Heat :=
  { pos := (0, 52), count := 53, turn := 249, tracks := List.range 54 }

/-- A small world at its horizon tick holding one Small boat with catch 3:
the end-of-run banking input of the forced-banking scenario. -/
def wC3 : WorldState :=
  { width := 10, height := 10, lobsters := [],
    boats := [{ home := (13, 0), pos := (5, 5), size := "Small",
                state := "Return", amount := 3, turn := 2, unable := false }],
    homes := initHomes, big_count := 0, small_count := 0, lobster_count := 0,
    time := 2, sim_length := 2, running := true, dc_lobster := [],
    dc_big := [], dc_small := [] }

/-- A world at its horizon tick holding one Big boat with catch 4. -/
def wC3w : WorldState :=
  { width := 5, height := 5, lobsters := [],
    boats := [{ home := (13, 0), pos := (2, 2), size := "Big",
                state := "Search", amount := 4, turn := 1, unable := false }],
    homes := initHomes, big_count := 7, small_count := 2, lobster_count := 0,
    time := 1, sim_length := 1, running := true, dc_lobster := [],
    dc_big := [], dc_small := [] }

/-- A default-sized 53x53 world holding a single Wander lobster on the top
row 52. -/
def wC7 : WorldState :=
  { width := 53, height := 53,
    lobsters := [{ pos := (0, 52), state := "Wander", turn := 0, count := 0,
                   counts := [0] }],
    boats := [], homes := initHomes, big_count := 0, small_count := 0,
    lobster_count := 0, time := 1, sim_length := 30, running := true,
    dc_lobster := [], dc_big := [], dc_small := [] }

/-- A small world away from its horizon with the three initial ports. -/
def wC10 : WorldState :=
  { width := 2, height := 2, lobsters := [], boats := [], homes := initHomes,
    big_count := 0, small_count := 0, lobster_count := 0, time := 0,
    sim_length := 5, running := true, dc_lobster := [], dc_big := [],
    dc_small := [] }

deriving instance DecidableEq for Except

/-! Helper lemmas shared by the claim theorems. -/

/-- A successful grid relocation changes only the boat's position. -/
theorem moveAgent_ok_fields (gw gh : Nat) (b b' : Boat) (p : Pos)
    (h : moveAgent gw gh b p = Except.ok b') :
    b'.size = b.size ∧ b'.state = b.state ∧ b'.amount = b.amount ∧
    b'.unable = b.unable ∧ b'.home = b.home := by
  unfold moveAgent at h
  split at h
  · injection h with h
    subst h
    exact ⟨rfl, rfl, rfl, rfl, rfl⟩
  · exact absurd h (by simp)

/-- A successful catch attempt changes at most the position and the held
amount, incrementing the amount exactly when it reports a catch. -/
theorem catchTry_ok_fields (gw gh : Nat) (b b' : Boat) (env : BoatEnv)
    (c : Bool) (h : catchTry gw gh b env = Except.ok (b', c)) :
    b'.size = b.size ∧ b'.state = b.state ∧ b'.unable = b.unable ∧
    b'.home = b.home ∧
    ((c = false ∧ b'.amount = b.amount) ∨
      (c = true ∧ b'.amount = b.amount + 1)) := by
  unfold catchTry at h
  split at h
  · injection h with h
    rw [Prod.ext_iff] at h
    obtain ⟨h1, h2⟩ := h
    subst h1
    exact ⟨rfl, rfl, rfl, rfl, Or.inl ⟨h2.symm, rfl⟩⟩
  · split at h
    · exact absurd h (by simp)
    · rename_i b1 hmv
      injection h with h
      rw [Prod.ext_iff] at h
      obtain ⟨h1, h2⟩ := h
      subst h1
      obtain ⟨hs, hst, ha, hu, hh⟩ := moveAgent_ok_fields gw gh b b1 _ hmv
      exact ⟨hs, hst, hu, hh, Or.inr ⟨h2.symm, by simp [ha]⟩⟩

/-- A successful return-home move changes only the boat's position. -/
theorem returnHome_ok_fields (gw gh : Nat) (b b' : Boat) (env : BoatEnv)
    (h : returnHome gw gh b env = Except.ok b') :
    b'.size = b.size ∧ b'.state = b.state ∧ b'.amount = b.amount ∧
    b'.unable = b.unable ∧ b'.home = b.home := by
  unfold returnHome at h
  split at h
  · exact absurd h (by simp)
  · exact moveAgent_ok_fields gw gh b b' _ h

/-- The search-phase movement (smart or random) changes only the boat's
position. -/
theorem movePhase_ok_fields (gw gh : Nat) (b b1 : Boat) (env : BoatEnv)
    (cond : Prop) [Decidable cond]
    (h : (if cond then smartMove gw gh b else Except.ok (randomMove b env)) =
      Except.ok b1) :
    b1.size = b.size ∧ b1.state = b.state ∧ b1.amount = b.amount ∧
    b1.unable = b.unable ∧ b1.home = b.home := by
  split at h
  · exact moveAgent_ok_fields gw gh b b1 _ h
  · injection h with h
    subst h
    exact ⟨rfl, rfl, rfl, rfl, rfl⟩

/-- With a size tag the program ever assigns, `able_to_return` answers
true exactly at the size-class capacity. -/
theorem ableToReturn_iff (b : Boat) (hs : b.size = "Small" ∨ b.size = "Big") :
    ableToReturn b = true ↔ b.amount = capacity b.size := by
  rcases hs with h | h <;> simp [ableToReturn, capacity, h]

/-- Folding `in_storage` over a boat list adds the sum of the held amounts
to `big_count` and changes nothing else. -/
theorem foldl_inStorage (bs : List Boat) (w : WorldState) :
    bs.foldl inStorage w =
      { w with big_count := w.big_count + (bs.map Boat.amount).sum } := by
  induction bs generalizing w with
  | nil => simp
  | cons b bs ih =>
      simp only [List.foldl_cons, List.map_cons, List.sum_cons, ih, inStorage,
        Nat.add_assoc]

/-- The tail of `World.step` never touches the port list. -/
theorem worldStepTail_homes (w : WorldState) :
    (worldStepTail w).homes = w.homes := by
  unfold worldStepTail collectAll
  dsimp only
  split
  · rw [foldl_inStorage]
  · rfl

/-- Capacity of either size class the program assigns is positive. -/
theorem capacity_pos (s : String) (hs : s = "Small" ∨ s = "Big") :
    0 < capacity s := by
  rcases hs with h | h <;> simp [capacity, h]

/-- An element picked from a non-empty list at an index reduced modulo the
length is a member of the list. -/
theorem getD_mod_mem (l : List Pos) (h : l ≠ []) (i : Nat) (d : Pos) :
    l.getD (i % l.length) d ∈ l := by
  have hlen : i % l.length < l.length :=
    Nat.mod_lt _ (List.length_pos.mpr h)
  rw [List.getD_eq_getElem l d hlen]
  exact List.getElem_mem hlen

/-- Two lists with the same members agree on `contains`. -/
theorem contains_eq_of_mem_iff (l1 l2 : List Nat)
    (h : ∀ x, x ∈ l1 ↔ x ∈ l2) (x : Nat) : l1.contains x = l2.contains x := by
  cases h1 : l1.contains x <;> cases h2 : l2.contains x
  · rfl
  · have hx : x ∈ l2 := by simpa using h2
    have hc : l1.contains x = true := by simpa using (h x).mpr hx
    rw [h1] at hc
    exact absurd hc (by decide)
  · have hx : x ∈ l1 := by simpa using h1
    have hc : l2.contains x = true := by simpa using (h x).mp hx
    rw [h2] at hc
    exact absurd hc (by decide)
  · rfl

/-- Concatenating the track lists of agents that all carry the same track
list yields a list with exactly those members, provided there is at least
one agent. -/
theorem foldr_tracks_all_eq (l : List NAgent) (t : List Nat)
    (hall : ∀ a ∈ l, NAgent.heatTracks a = t) (m : Nat) :
    (m ∈ l.foldr (fun h acc => h.heatTracks ++ acc) []) ↔
      (l ≠ [] ∧ m ∈ t) := by
  induction l with
  | nil => simp
  | cons a l ih =>
      have ha : a.heatTracks = t := hall a (List.mem_cons_self a l)
      have ih' := ih (fun x hx => hall x (List.mem_cons_of_mem a hx))
      simp only [List.foldr_cons, List.mem_append, ha, ih']
      constructor
      · rintro (h | ⟨_, h⟩) <;> exact ⟨by simp, h⟩
      · rintro ⟨_, h⟩
        exact Or.inl h

/-! Claim theorems. -/

/-- C1, counterexample: a Lobster whose state is already Caught is moved
again by its very next step — with a heat-spot neighbor present,
`Lobster.step` relocates it exactly as it would a Wander lobster, because
`step` and `move_north` never consult the state field. -/
theorem lobster_caught_moves_again :
    lC1.state = "Caught" ∧ (lobsterStep 53 lC1 envC1).state = "Caught" ∧
    (lobsterStep 53 lC1 envC1).pos ≠ lC1.pos := by decide

/-- C1, amended: `Lobster.step` ignores the state field entirely — stepping
a lobster with any state `s` produces exactly the step of the same lobster
with the state merely carried along unchanged; a Caught lobster is stepped
and moved like any other, and nothing removes it from the World's
schedule (`caught()` targets the lobster's private scheduler and has no
call site). -/
theorem lobster_step_ignores_state (wsize : Nat) (l : Lob) (env : LobEnv)
    (s : String) :
    lobsterStep wsize { l with state := s } env =
      { lobsterStep wsize l env with state := s } := by
  unfold lobsterStep moveNorth neighborMoveSelf
  dsimp only
  split
  · rfl
  · split
    · rfl
    · rfl

/-- C2, counterexample: a freshly constructed Small boat that catches one
lobster on each of five consecutive ticks ends the fifth tick holding
`amount = 5 = capacity` and keeps that amount at the tick boundary while in
Return, so the held catch does NOT stay in the half-open interval
`[0, capacity)`. -/
theorem boat_reaches_full_capacity :
    BoatInv bC2 ∧ boatRun 53 53 bC2 envsC2 = Except.ok bC2final ∧
    bC2final.size = "Small" ∧ capacity bC2final.size = 5 ∧
    ¬ bC2final.amount < capacity bC2final.size := by decide

/-- C2, amended: `Boat.step` preserves the invariant that the held catch
lies in the closed interval `[0, capacity]` with the strict bound holding
while in Search, and a boat whose amount has reached capacity is in Return
— so a catch that fills the boat flips Search to Return within the same
tick. -/
theorem boat_capacity_invariant (gw gh : Nat) (b b' : Boat) (env : BoatEnv)
    (d : Nat × Nat) (hinv : BoatInv b)
    (hstep : boatStep gw gh b env = Except.ok (b', d)) :
    BoatInv b' ∧ (b'.amount = capacity b'.size → b'.state = "Return") := by
  obtain ⟨hsz, hstt, hle, hlt⟩ := hinv
  unfold boatStep at hstep
  dsimp only at hstep
  split at hstep
  · rename_i hsearch
    split at hstep
    · rename_i helig
      split at hstep
      · exact absurd hstep (by simp)
      · rename_i b1 hmv
        split at hstep
        · exact absurd hstep (by simp)
        · rename_i b2c b2 c hct
          obtain ⟨hm1, hm2, hm3, hm4, hm5⟩ :=
            movePhase_ok_fields gw gh _ b1 env _ hmv
          obtain ⟨hc1, hc2, hc3, hc4, hc5⟩ :=
            catchTry_ok_fields gw gh b1 b2 env c hct
          have hm1' : b1.size = b.size := hm1
          have hm2' : b1.state = b.state := hm2
          have hm3' : b1.amount = b.amount := hm3
          have hs2 : b2.size = b.size := by rw [hc1, hm1']
          have hst2 : b2.state = "Search" := by rw [hc2, hm2']; exact hsearch
          have hlt' : b.amount < capacity b.size := hlt hsearch
          have hs2' : (b.size = "Small" ∨ b.size = "Big") →
              (b2.size = "Small" ∨ b2.size = "Big") := by rw [hs2]; exact id
          split at hstep
          · injection hstep with h
            injection h with h1 h2
            subst h1
            refine ⟨⟨hs2' hsz, Or.inr rfl, ?_, by simp⟩, fun _ => rfl⟩
            show b2.amount ≤ capacity b2.size
            rw [hs2]
            rcases hc5 with ⟨_, ha⟩ | ⟨_, ha⟩ <;> rw [ha, hm3'] <;> omega
          · rename_i hnot
            injection hstep with h
            injection h with h1 h2
            subst h1
            rcases hc5 with ⟨hcf, ha⟩ | ⟨hct', ha⟩
            · have hlt2 : b2.amount < capacity b2.size := by
                rw [ha, hm3', hs2]; exact hlt'
              exact ⟨⟨hs2' hsz, Or.inl hst2, le_of_lt hlt2, fun _ => hlt2⟩,
                fun hcap => absurd hcap (by omega)⟩
            · subst hct'
              have hable : ableToReturn b2 = false := by
                cases hab : ableToReturn b2
                · rfl
                · exact absurd (by simp [hab]) hnot
              have hne : b2.amount ≠ capacity b2.size := by
                intro hcap
                have := (ableToReturn_iff b2 (hs2' hsz)).mpr hcap
                rw [hable] at this
                exact Bool.false_ne_true this
              have hlt2 : b2.amount < capacity b2.size := by
                have h1 : b2.amount ≤ capacity b2.size := by
                  rw [ha, hm3', hs2]; omega
                omega
              exact ⟨⟨hs2' hsz, Or.inl hst2, le_of_lt hlt2, fun _ => hlt2⟩,
                fun hcap => absurd hcap hne⟩
    · injection hstep with h
      injection h with h1 h2
      subst h1
      exact ⟨⟨hsz, Or.inr rfl, le_of_lt (hlt hsearch), by simp⟩, fun _ => rfl⟩
  · rename_i hnsearch
    have hret : b.state = "Return" := by
      rcases hstt with h | h
      · exact absurd h hnsearch
      · exact h
    have hcapne : capacity b.size ≠ 0 :=
      Nat.pos_iff_ne_zero.mp (capacity_pos b.size hsz)
    split at hstep
    · split at hstep <;> split at hstep <;>
        (injection hstep with h; injection h with h1 h2; subst h1) <;>
        refine ⟨⟨hsz, ?_, Nat.zero_le _, fun _ => capacity_pos b.size hsz⟩,
          fun hcap => absurd hcap.symm hcapne⟩
      · exact Or.inl rfl
      · exact Or.inl rfl
      · exact Or.inr hret
      · exact Or.inr hret
    · split at hstep
      · exact absurd hstep (by simp)
      · rename_i b1 hrh
        injection hstep with h
        injection h with h1 h2
        subst h1
        obtain ⟨hr1, hr2, hr3, hr4, hr5⟩ :=
          returnHome_ok_fields gw gh _ b1 env hrh
        have hr1' : b1.size = b.size := hr1
        have hr2' : b1.state = b.state := hr2
        have hr3' : b1.amount = b.amount := hr3
        have hret1 : b1.state = "Return" := by rw [hr2']; exact hret
        refine ⟨⟨by rw [hr1']; exact hsz, Or.inr hret1,
          by rw [hr3', hr1']; exact hle, fun hS => ?_⟩, fun _ => hret1⟩
        rw [hret1] at hS
        exact absurd hS (by decide)

/-- C2, witness: the invariant holds of a freshly constructed boat and is
carried through one concrete step by the invariant theorem. -/
theorem boat_capacity_invariant_witness :
    BoatInv bC2w1 ∧
      (bC2w1.amount = capacity bC2w1.size → bC2w1.state = "Return") :=
  boat_capacity_invariant 53 53 bC2 bC2w1 envEmpty (0, 0) (by decide) (by rfl)

/-- C3, counterexample: at the horizon tick, a world holding one Small boat
with catch 3 banks the 3 into `big_count` — `small_count` stays 0 even
though the boat is Small, and the boat's held amount is NOT reset to 0 —
while the running flag does become false. -/
theorem world_banking_counterexample :
    (worldStepTail wC3).big_count = 3 ∧ (worldStepTail wC3).small_count = 0 ∧
    (worldStepTail wC3).boats.map Boat.amount = [3] ∧
    (worldStepTail wC3).running = false ∧
    ¬ (worldStepTail wC3).small_count = wC3.small_count + 3 := by decide

/-- C3, amended: when `World.step` reaches the horizon tick, `in_storage`
adds every boat's held catch to `big_count` regardless of size,
`small_count` is untouched, no boat's held amount is reset, and the
running flag becomes false. -/
theorem world_horizon_banking (w : WorldState) (hhz : w.time = w.sim_length) :
    (worldStepTail w).big_count = w.big_count + (w.boats.map Boat.amount).sum ∧
    (worldStepTail w).small_count = w.small_count ∧
    (worldStepTail w).boats = w.boats ∧
    (worldStepTail w).running = false := by
  unfold worldStepTail collectAll
  dsimp only
  rw [if_pos hhz, foldl_inStorage]
  exact ⟨rfl, rfl, rfl, rfl⟩

/-- C3, witness: the horizon-banking theorem applied to a concrete world at
its horizon tick holding one Big boat with catch 4. -/
theorem world_horizon_banking_witness :
    (worldStepTail wC3w).big_count =
      wC3w.big_count + (wC3w.boats.map Boat.amount).sum ∧
    (worldStepTail wC3w).small_count = wC3w.small_count ∧
    (worldStepTail wC3w).boats = wC3w.boats ∧
    (worldStepTail wC3w).running = false :=
  world_horizon_banking wC3w (by rfl)

/-- C4: `in_storage` adds the boat's held amount to the World's big-boat
aggregate for every boat — the boat's size field is never consulted — and
leaves the small-boat aggregate, the boat list, and the ports unchanged. -/
theorem in_storage_credits_big_aggregate (w : WorldState) (b : Boat) :
    (inStorage w b).big_count = w.big_count + b.amount ∧
    (inStorage w b).small_count = w.small_count ∧
    (inStorage w b).boats = w.boats ∧
    (inStorage w b).homes = w.homes := ⟨rfl, rfl, rfl, rfl⟩

/-- C5, counterexample: after five ticks on the default 53x53 grid from
its initial placement at row 3, a heat spot sits at row 4 but its history
is `[0,1,2,3,4,5]`: it contains row 0 (and 1, 2, 5), rows the spot has
never occupied in those ticks, so the history does not record exactly the
rows ever occupied, and the appended value 5 is not the new row 4. -/
theorem heat_history_counterexample :
    heatRun 53 53 (heatInit 0) 5 = Except.ok hC5 ∧
    hC5.pos = (0, 4) ∧ hC5.tracks = [0, 1, 2, 3, 4, 5] ∧
    (0 : Nat) ∈ hC5.tracks ∧
    (∀ k, k ≤ 5 →
      (heatRun 53 53 (heatInit 0) k).map (fun h => h.pos.2) ≠
        Except.ok 0) := by decide

/-- C5, amended: on every 5th tick a well-formed heat spot (position row
`count - 1`, history `[0, ..., count]` — as established at construction and
preserved by every step) moves one row north at its fixed column when the
target cell is inside the grid, but the value appended to the history is
`new row + 1` (the row of the NEXT move), keeping the history equal to
`[0, ..., count]`, a strict superset of the rows ever occupied; when the
target cell is outside the grid the step raises the grid's out-of-bounds
error; on all other ticks only the turn counter changes. -/
theorem heat_step_spec (gw gh : Nat) (h : Heat) (hc : 1 ≤ h.count)
    (hp : h.pos.2 = h.count - 1) (ht : h.tracks = List.range (h.count + 1)) :
    ((h.turn + 1) % 5 = 0 → h.pos.1 < gw → h.count < gh →
      heatStep gw gh h = Except.ok
        { pos := (h.pos.1, h.pos.2 + 1), count := h.count + 1,
          turn := h.turn + 1, tracks := h.tracks ++ [h.pos.2 + 2] } ∧
      h.tracks ++ [h.pos.2 + 2] = List.range (h.count + 1 + 1) ∧
      1 ≤ h.count + 1 ∧ h.pos.2 + 1 = h.count + 1 - 1) ∧
    ((h.turn + 1) % 5 = 0 → ¬ (h.pos.1 < gw ∧ h.count < gh) →
      heatStep gw gh h = Except.error "Cell out of bounds") ∧
    ((h.turn + 1) % 5 ≠ 0 →
      heatStep gw gh h = Except.ok { h with turn := h.turn + 1 }) := by
  have hcnt : h.count = h.pos.2 + 1 := by omega
  unfold heatStep
  dsimp only
  refine ⟨?_, ?_, ?_⟩
  · intro hmod hx hy
    rw [if_pos hmod, if_pos ⟨hx, hy⟩]
    refine ⟨?_, ?_, by omega, by omega⟩
    · rw [hcnt]
    · rw [ht, hcnt, ← List.range_succ]
  · intro hmod hout
    rw [if_pos hmod, if_neg hout]
  · intro hmod
    rw [if_neg hmod]

/-- C5, witness: the heat-step theorem applied to the concrete spot state
four ticks after construction (whose next tick is an in-bounds 5th-tick
move) and to the top-row spot state whose 5th-tick move target is outside
the 53x53 grid. -/
theorem heat_step_spec_witness :
    heatStep 53 53 hW = Except.ok
      { pos := (hW.pos.1, hW.pos.2 + 1), count := hW.count + 1,
        turn := hW.turn + 1, tracks := hW.tracks ++ [hW.pos.2 + 2] } ∧
    heatStep 53 53 hTop = Except.error "Cell out of bounds" :=
  ⟨((heat_step_spec 53 53 hW (by decide) (by decide) (by decide)).1
      (by decide) (by decide) (by decide)).1,
   (heat_step_spec 53 53 hTop (by decide) (by decide) (by decide)).2.1
      (by decide) (by decide)⟩

/-- C6: in `move_north`, with no heat-spot neighbor the lobster does not
move this tick; with at least one heat-spot neighbor — all carrying the
same track history, which holds in every run since all heat spots are
constructed and stepped identically — the candidate set equals the
neighborhood positions (center included) whose row is not in the union of
every queried heat spot's history, and when that set is non-empty the
lobster relocates to the uniformly chosen member, a member of the set. -/
theorem move_north_candidates (wsize : Nat) (l : Lob) (env : LobEnv)
    (t : List Nat) :
    (env.neighbors.filter NAgent.isHeat = [] →
      (lobsterStep wsize l env).pos = l.pos) ∧
    (env.neighbors.filter NAgent.isHeat ≠ [] →
      (∀ a ∈ env.neighbors.filter NAgent.isHeat, NAgent.heatTracks a = t) →
      moveNorthMoves env.nbhd (heatLocater env.neighbors) =
        env.nbhd.filter
          (fun m => !((unionTracks env.neighbors).contains m.2)) ∧
      (env.southRoll = false →
        moveNorthMoves env.nbhd (heatLocater env.neighbors) ≠ [] →
        (lobsterStep wsize l env).pos ∈
          moveNorthMoves env.nbhd (heatLocater env.neighbors))) := by
  constructor
  · intro hnone
    unfold lobsterStep moveNorth heatLocater moveNorthMoves
    rw [hnone]
    rfl
  · intro hne hall
    have hmoves : moveNorthMoves env.nbhd (heatLocater env.neighbors) =
        env.nbhd.filter
          (fun m => !((unionTracks env.neighbors).contains m.2)) := by
      unfold heatLocater
      rcases hfe : env.neighbors.filter NAgent.isHeat with _ | ⟨a, rest⟩
      · exact absurd hfe hne
      · have ha : a.heatTracks = t :=
          hall a (by rw [hfe]; exact List.mem_cons_self a rest)
        unfold moveNorthMoves
        dsimp only
        rw [ha]
        apply List.filter_congr
        intro m _
        congr 1
        have hmem : ∀ x : Nat, x ∈ t ↔ x ∈ unionTracks env.neighbors := by
          intro x
          unfold unionTracks
          rw [foldr_tracks_all_eq (env.neighbors.filter NAgent.isHeat) t hall]
          constructor
          · exact fun hx => ⟨hne, hx⟩
          · exact fun hx => hx.2
        exact contains_eq_of_mem_iff t (unionTracks env.neighbors) hmem m.2
    refine ⟨hmoves, ?_⟩
    intro hroll hmne
    have hpos : (lobsterStep wsize l env).pos =
        (moveNorthMoves env.nbhd (heatLocater env.neighbors)).getD
          (env.choice %
            (moveNorthMoves env.nbhd (heatLocater env.neighbors)).length)
          l.pos := by
      unfold lobsterStep moveNorth neighborMoveSelf
      dsimp only
      rw [if_neg hmne, hroll]
      rw [if_neg (by simp)]
    rw [hpos]
    exact getD_mod_mem _ hmne _ _

/-- C6, witness: the move-north theorem applied to a concrete Wander
lobster with one heat-spot neighbor carrying history `[0,1,2,3,4]`. -/
theorem move_north_candidates_witness :
    moveNorthMoves envC1.nbhd (heatLocater envC1.neighbors) =
      envC1.nbhd.filter
        (fun m => !((unionTracks envC1.neighbors).contains m.2)) ∧
    (lobsterStep 53 lC6 envC1).pos ∈
      moveNorthMoves envC1.nbhd (heatLocater envC1.neighbors) :=
  ⟨((move_north_candidates 53 lC6 envC1 [0, 1, 2, 3, 4]).2 (by decide)
      (by decide)).1,
   ((move_north_candidates 53 lC6 envC1 [0, 1, 2, 3, 4]).2 (by decide)
      (by decide)).2 (by rfl) (by decide)⟩

/-- C7: `count_lobster` is not a full grid scan — its row loop runs over
`range(height - 1)`, skipping the top row — so a world whose only Wander
lobster sits on row 52 of the default 53-row grid is recounted as 0 where
the specified full scan yields 1; `World.step`'s recount therefore reports
0. -/
theorem count_lobster_skips_top_row :
    countLobsterScan wC7 = 0 ∧ specWanderCount wC7 = 1 ∧
    (worldStepTail wC7).lobster_count = 0 := by decide

/-- C8: a Small boat caught searching at row 26 or deeper sets `unable` and
flips to Return with its catch intact; and a boat with `unable` set in
Return stays in Return with `unable` set after every successful step —
banking its held catch into the size-appropriate aggregate and resetting it
to 0 whenever it is at its home port. -/
theorem boat_unable_locked :
    (∀ (gw gh : Nat) (b b' : Boat) (env : BoatEnv) (d : Nat × Nat),
      b.state = "Search" → b.size = "Small" → ¬ b.pos.2 < 26 →
      boatStep gw gh b env = Except.ok (b', d) →
      b'.unable = true ∧ b'.state = "Return" ∧ b'.amount = b.amount) ∧
    (∀ (gw gh : Nat) (b b' : Boat) (env : BoatEnv) (d : Nat × Nat),
      b.unable = true → b.state = "Return" →
      boatStep gw gh b env = Except.ok (b', d) →
      b'.unable = true ∧ b'.state = "Return" ∧
      (b.pos = b.home → b'.amount = 0 ∧
        (b.size = "Big" → d = (b.amount, 0)) ∧
        (¬ b.size = "Big" → d = (0, b.amount)))) := by
  constructor
  · intro gw gh b b' env d hsearch hsmall hdeep hstep
    unfold boatStep at hstep
    dsimp only at hstep
    split at hstep
    · split at hstep
      · rename_i helig
        rcases helig with ⟨_, hlt⟩ | hbig
        · exact absurd hlt hdeep
        · rw [hsmall] at hbig
          exact absurd hbig (by decide)
      · injection hstep with h
        injection h with h1 h2
        subst h1
        exact ⟨rfl, rfl, rfl⟩
    · rename_i hns
      exact absurd hsearch hns
  · intro gw gh b b' env d hun hret hstep
    unfold boatStep at hstep
    dsimp only at hstep
    split at hstep
    · rename_i hsearch
      rw [hret] at hsearch
      exact absurd hsearch (by decide)
    · split at hstep
      · rename_i hhome
        split at hstep
        · rename_i hnotun
          rw [hun] at hnotun
          exact absurd hnotun (by decide)
        · split at hstep
          · rename_i hbig
            injection hstep with h
            injection h with h1 h2
            subst h1
            subst h2
            have hbig' : b.size = "Big" := hbig
            exact ⟨hun, hret, fun _ => ⟨rfl, fun _ => rfl,
              fun hnb => absurd hbig' hnb⟩⟩
          · rename_i hnbig
            injection hstep with h
            injection h with h1 h2
            subst h1
            subst h2
            have hnbig' : ¬ b.size = "Big" := fun hh => hnbig (by exact hh)
            exact ⟨hun, hret, fun _ => ⟨rfl, fun hb => absurd hb hnbig',
              fun _ => rfl⟩⟩
      · rename_i hnothome
        split at hstep
        · exact absurd hstep (by simp)
        · rename_i b1 hrh
          injection hstep with h
          injection h with h1 h2
          subst h1
          obtain ⟨hr1, hr2, hr3, hr4, hr5⟩ :=
            returnHome_ok_fields gw gh _ b1 env hrh
          have hr2' : b1.state = b.state := hr2
          have hr4' : b1.unable = b.unable := hr4
          refine ⟨by rw [hr4']; exact hun, by rw [hr2']; exact hret,
            fun hhome => ?_⟩
          exact absurd hhome (by
            intro hh
            exact hnothome (by exact hh))

/-- C8, witness: the unable-lock theorem applied to a concrete unable Small
boat docked at its home port with catch 2. -/
theorem boat_unable_locked_witness :
    bC8after.unable = true ∧ bC8after.state = "Return" ∧
    bC8after.amount = 0 ∧ ((0, 2) : Nat × Nat) = (0, bC8.amount) :=
  have h := boat_unable_locked.2 53 53 bC8 bC8after envEmpty (0, 2)
    (by rfl) (by rfl) (by rfl)
  ⟨h.1, h.2.1, (h.2.2 rfl).1, (h.2.2 rfl).2.2 (by decide)⟩

/-- C9: `smart_move` performs no bounds check, so a Big boat searching at
the top row 52 of the default 53x53 grid whose depth limit `4 + turn // 5`
exceeds 52 attempts to relocate to the out-of-bounds cell `(0, 53)` and its
step raises the grid's out-of-bounds error instead of performing a no-op;
the erroring state is one step away from the in-bounds state `bC9start`. -/
theorem boat_smart_move_out_of_bounds :
    boatStep 53 53 bC9start envEmpty = Except.ok (bC9top, 0, 0) ∧
    boatStep 53 53 bC9top envEmpty = Except.error "Cell out of bounds" := by
  decide

/-- C10: the model-level step tail never touches the port list across any
number of ticks, a boat's step never changes its home-port reference, and
banking flows only through the World aggregates — so every port of a world
initialised with the three amount-0 ports still holds amount 0 after any
number of ticks (`Home.add`, the only operation that would change a port's
amount, has no call site). -/
theorem home_amounts_stay_zero :
    (∀ (w : WorldState) (n : Nat), (worldStepTail^[n] w).homes = w.homes) ∧
    (∀ (gw gh : Nat) (b b' : Boat) (env : BoatEnv) (d : Nat × Nat),
      boatStep gw gh b env = Except.ok (b', d) → b'.home = b.home) ∧
    (∀ (w : WorldState) (n : Nat), w.homes = initHomes →
      ∀ hm ∈ (worldStepTail^[n] w).homes, hm.amount = 0) := by
  have hiter : ∀ (w : WorldState) (n : Nat),
      (worldStepTail^[n] w).homes = w.homes := by
    intro w n
    induction n generalizing w with
    | zero => rfl
    | succ n ih => rw [Function.iterate_succ_apply, ih, worldStepTail_homes]
  refine ⟨hiter, ?_, ?_⟩
  · intro gw gh b b' env d hstep
    unfold boatStep at hstep
    dsimp only at hstep
    split at hstep
    · split at hstep
      · split at hstep
        · exact absurd hstep (by simp)
        · rename_i b1 hmv
          split at hstep
          · exact absurd hstep (by simp)
          · rename_i b2c b2 c hct
            obtain ⟨_, _, _, _, hm5⟩ :=
              movePhase_ok_fields gw gh _ b1 env _ hmv
            obtain ⟨_, _, _, hc4, _⟩ :=
              catchTry_ok_fields gw gh b1 b2 env c hct
            have hh : b2.home = b.home := by rw [hc4, hm5]
            split at hstep <;>
              (injection hstep with h; injection h with h1 h2; subst h1) <;>
              exact hh
      · injection hstep with h
        injection h with h1 h2
        subst h1
        rfl
    · split at hstep
      · split at hstep <;> split at hstep <;>
          (injection hstep with h; injection h with h1 h2; subst h1) <;> rfl
      · split at hstep
        · exact absurd hstep (by simp)
        · rename_i b1 hrh
          injection hstep with h
          injection h with h1 h2
          subst h1
          obtain ⟨_, _, _, _, hr5⟩ := returnHome_ok_fields gw gh _ b1 env hrh
          exact hr5
  · intro w n hh hm hmem
    rw [hiter w n, hh] at hmem
    simp only [initHomes, List.mem_cons, List.not_mem_nil, or_false] at hmem
    rcases hmem with h | h | h <;> subst h <;> rfl

/-- C10, witness: the port-amount theorem applied to a concrete world with
the three initial ports after one tick. -/
theorem home_amounts_stay_zero_witness :
    ({ pos := (13, 0), amount := 0, size := "big" } : HomeA).amount = 0 :=
  home_amounts_stay_zero.2.2 wC10 1 rfl
    { pos := (13, 0), amount := 0, size := "big" } (by decide)
